import Mathlib

/-!
The `asm` package: opcode codec, instruction model and diagnostic formatter.

A shallow embedding of `asm/opcode.go` and `asm/instruction.go`.

* Every `uint8`-backed Go type (`OpCode`, `Class`, `Size`, `Mode`, `Source`,
  `ALUOp`, `BranchOp`) is a natural number; a value is a byte when it is `< 256`.
  The accessors only mask, so no wrap-around arithmetic occurs.
* `int16` / `int64` operands are integers; `%d` and `%v` print them in decimal.
* The `Register` type, its `String` method, the constant `R1` and the `Func`
  type live in files of the package that are not part of the development; they
  are parameters of the embedding (`Printers`).
-/

namespace Asm

/-! ## opcode.go -/

/-- Go: `type encoding int` with the three `iota` constants. -/
inductive encoding where
  | unknownEncoding
  | loadOrStore
  | branchOrALU
  deriving DecidableEq, Repr

open encoding

/-- Go: `type Class uint8`. -/
abbrev Class := Nat
/-- Go: `type Size uint8`. -/
abbrev Size := Nat
/-- Go: `type Mode uint8`. -/
abbrev Mode := Nat
/-- Go: `type Source uint8`. -/
abbrev Source := Nat
/-- Go: `type ALUOp uint8`. -/
abbrev ALUOp := Nat
/-- Go: `type BranchOp uint8`. -/
abbrev BranchOp := Nat
/-- Go: `type OpCode uint8`. -/
abbrev OpCode := Nat

abbrev classMask : OpCode := 0x07

abbrev LdClass : Class := 0x00
abbrev LdXClass : Class := 0x01
abbrev StClass : Class := 0x02
abbrev StXClass : Class := 0x03
abbrev ALUClass : Class := 0x04
abbrev JmpClass : Class := 0x05
abbrev RetClass : Class := 0x06
abbrev MiscClass : Class := 0x07
abbrev ALU64Class : Class := 0x07

/-- Go: `func (cls Class) encoding() encoding`. -/
def Class.encoding (cls : Class) : encoding :=
  if cls = LdClass ∨ cls = LdXClass ∨ cls = StClass ∨ cls = StXClass then
    loadOrStore
  else if cls = ALU64Class ∨ cls = ALUClass ∨ cls = JmpClass ∨ cls = RetClass then
    branchOrALU
  else
    unknownEncoding

abbrev sizeMask : OpCode := 0x18

abbrev InvalidSize : Size := 0xff
abbrev DWSize : Size := 0x18
abbrev WSize : Size := 0x00
abbrev HSize : Size := 0x08
abbrev BSize : Size := 0x10

abbrev modeMask : OpCode := 0xe0

abbrev InvalidMode : Mode := 0xff
abbrev ImmMode : Mode := 0x00
abbrev AbsMode : Mode := 0x20
abbrev IndMode : Mode := 0x40
abbrev MemMode : Mode := 0x60
abbrev LenMode : Mode := 0x80
abbrev MshMode : Mode := 0xa0
abbrev XAddMode : Mode := 0xc0

abbrev sourceMask : OpCode := 0x08

abbrev InvalidSource : Source := 0xff
abbrev ImmSource : Source := 0x00
abbrev RegSource : Source := 0x08
abbrev LittleEndian : Source := 0x00
abbrev BigEndian : Source := 0x00

abbrev aluMask : OpCode := 0xf0

abbrev InvalidALUOp : ALUOp := 0xff
abbrev AddOp : ALUOp := 0x00
abbrev SubOp : ALUOp := 0x10
abbrev MulOp : ALUOp := 0x20
abbrev DivOp : ALUOp := 0x30
abbrev OrOp : ALUOp := 0x40
abbrev AndOp : ALUOp := 0x50
abbrev LShOp : ALUOp := 0x60
abbrev RShOp : ALUOp := 0x70
abbrev NegOp : ALUOp := 0x80
abbrev ModOp : ALUOp := 0x90
abbrev XOrOp : ALUOp := 0xa0
abbrev MovOp : ALUOp := 0xb0
abbrev ArShOp : ALUOp := 0xc0
abbrev EndOp : ALUOp := 0xd0

abbrev branchMask : OpCode := aluMask

abbrev InvalidBranchOp : BranchOp := 0xff
abbrev JaOp : BranchOp := 0x00
abbrev JEqOp : BranchOp := 0x10
abbrev JGTOp : BranchOp := 0x20
abbrev JGEOp : BranchOp := 0x30
abbrev JSETOp : BranchOp := 0x40
abbrev JNEOp : BranchOp := 0x50
abbrev JSGTOp : BranchOp := 0x60
abbrev JSGEOp : BranchOp := 0x70
abbrev CallOp : BranchOp := 0x80
abbrev ExitOp : BranchOp := 0x90

abbrev InvalidOpCode : OpCode := 0xff

/-- Go: `func (op OpCode) Class() Class`. -/
def OpCode.Class (op : OpCode) : Class :=
  op &&& classMask

/-- Go: `func (op OpCode) Mode() Mode`. -/
def OpCode.Mode (op : OpCode) : Mode :=
  if Class.encoding (OpCode.Class op) ≠ loadOrStore then InvalidMode
  else op &&& modeMask

/-- Go: `func (op OpCode) Size() Size`. -/
def OpCode.Size (op : OpCode) : Size :=
  if Class.encoding (OpCode.Class op) ≠ loadOrStore then InvalidSize
  else op &&& sizeMask

/-- Go: `func (op OpCode) Source() Source`. -/
def OpCode.Source (op : OpCode) : Source :=
  if Class.encoding (OpCode.Class op) ≠ branchOrALU then InvalidSource
  else op &&& sourceMask

/-- Go: `func (op OpCode) ALUOp() ALUOp`. -/
def OpCode.ALUOp (op : OpCode) : ALUOp :=
  if Class.encoding (OpCode.Class op) ≠ branchOrALU then InvalidALUOp
  else op &&& aluMask

/-- Go: `func (op OpCode) BranchOp() BranchOp`. -/
def OpCode.BranchOp (op : OpCode) : BranchOp :=
  if Class.encoding (OpCode.Class op) ≠ branchOrALU then InvalidBranchOp
  else op &&& branchMask

/-- Go: `func valid(value, mask OpCode) bool`; `^mask` is the byte complement. -/
def valid (value mask : OpCode) : Bool :=
  value &&& (0xff ^^^ mask) == 0

/-- The load/store family of classes. -/
def Class.isLoadStore (cls : Class) : Prop :=
  cls = LdClass ∨ cls = LdXClass ∨ cls = StClass ∨ cls = StXClass

/-- The arithmetic/branch family of classes. -/
def Class.isArithBranch (cls : Class) : Prop :=
  cls = ALUClass ∨ cls = ALU64Class ∨ cls = JmpClass ∨ cls = RetClass

instance (cls : Class) : Decidable (Class.isLoadStore cls) := by
  unfold Class.isLoadStore; infer_instance

instance (cls : Class) : Decidable (Class.isArithBranch cls) := by
  unfold Class.isArithBranch; infer_instance

/-! ## instruction.go -/

/-- Go: `type Instruction struct`. The register type is declared in a file of the
package outside this development, so it is a type parameter. `Offset` is an
`int16` and `Constant` an `int64`. -/
structure Instruction (Register : Type) where
  OpCode : Asm.OpCode
  DstRegister : Register
  SrcRegister : Register
  Offset : Int
  Constant : Int
  Reference : String
  Symbol : String

/-- What `Instruction.String` uses from the rest of the package: the text `%s`
prints for a `Register` (its `String` method), the register constant `R1`, and the
text `%v` prints for `Func(c)` where `c` is the instruction's `int64` constant. -/
structure Printers (Register : Type) where
  regString : Register → String
  R1 : Register
  funcString : Int → String

/-- Go: `func (ins Instruction) Ref(symbol string) Instruction`. -/
def Instruction.Ref {R : Type} (ins : Instruction R) (symbol : String) : Instruction R :=
  { ins with Reference := symbol }

/-- Go: `func (ins Instruction) Sym(name string) Instruction`. -/
def Instruction.Sym {R : Type} (ins : Instruction R) (name : String) : Instruction R :=
  { ins with Symbol := name }

/-- Go: `func (ins Instruction) EncodedLength() int`. -/
def Instruction.EncodedLength {R : Type} (ins : Instruction R) : Int :=
  if OpCode.Size ins.OpCode = DWSize then 2 else 1

/-- Go: `var classMap = map[Class]string{...}`; a key that is absent reads as `""`. -/
def classMap (cls : Class) : String :=
  if cls = LdClass then "Ld"
  else if cls = LdXClass then "LdX"
  else if cls = StClass then "St"
  else if cls = StXClass then "StX"
  else if cls = ALUClass then "ALU32"
  else if cls = JmpClass then "Jmp"
  else if cls = RetClass then "Rt"
  else if cls = ALU64Class then "ALU64"
  else ""

/-- Go: the verb `%d` (and `%v`) applied to a signed integer: decimal digits,
preceded by `-` when negative. -/
def sprintD (n : Int) : String :=
  toString n

/-- The string variables of `Instruction.String`, each starting at Go's zero value.
`class_` is the variable `class`. -/
structure Vars where
  opStr : String := ""
  class_ : String := ""
  dst : String := ""
  src : String := ""
  off : String := ""
  imm : String := ""
  alu32 : String := ""
  mode : String := ""
  xAdd : Bool := false
  size : String := ""
  opSuffix : String := ""
  opPrefix : String := ""

/-- Go: `fmt.Sprintf(" dst: %s", ins.DstRegister)`. -/
def dstFrag {R : Type} (P : Printers R) (ins : Instruction R) : String :=
  " dst: " ++ P.regString ins.DstRegister

/-- Go: `fmt.Sprintf(" src: %s", ins.SrcRegister)`. -/
def srcFrag {R : Type} (P : Printers R) (ins : Instruction R) : String :=
  " src: " ++ P.regString ins.SrcRegister

/-- Go: `fmt.Sprintf(" off: %d", ins.Offset)`. -/
def offFrag {R : Type} (ins : Instruction R) : String :=
  " off: " ++ sprintD ins.Offset

/-- Go: `fmt.Sprintf(" imm: %d", ins.Constant)`. -/
def immFrag {R : Type} (ins : Instruction R) : String :=
  " imm: " ++ sprintD ins.Constant

/-- Go: `switch op.Mode() { ... }` in the load/store case of `String`. -/
def modeSwitch {R : Type} (P : Printers R) (ins : Instruction R) (v : Vars) : Vars :=
  let m := OpCode.Mode ins.OpCode
  if m = ImmMode then
    { v with mode := "Imm", imm := immFrag ins }
  else if m = AbsMode then
    { v with mode := "Abs", dst := "", imm := immFrag ins, off := "" }
  else if m = IndMode then
    { v with mode := "Ind", src := srcFrag P ins, imm := immFrag ins, off := "" }
  else if m = MemMode then
    { v with src := srcFrag P ins, off := offFrag ins, imm := immFrag ins }
  else if m = LenMode then
    { v with mode := "Len" }
  else if m = MshMode then
    { v with mode := "Msh" }
  else if m = XAddMode then
    { v with mode := "XAdd", src := srcFrag P ins, xAdd := true }
  else v

/-- Go: `switch op.Size() { ... }` in the load/store case of `String`. -/
def sizeSwitch (op : OpCode) (v : Vars) : Vars :=
  let s := OpCode.Size op
  if s = DWSize then { v with size := "DW" }
  else if s = WSize then { v with size := "W" }
  else if s = HSize then { v with size := "H" }
  else if s = BSize then { v with size := "B" }
  else v

/-- Go: the `if op.Source() == ImmSource { ... } else { ... }` statement shared by
the ALU and the jump case of `String`. -/
def sourceSwitch {R : Type} (P : Printers R) (ins : Instruction R) (v : Vars) : Vars :=
  if OpCode.Source ins.OpCode = ImmSource then
    { v with imm := immFrag ins, opSuffix := "Imm" }
  else
    { v with src := srcFrag P ins, opSuffix := "Src" }

/-- Go: `switch op.ALUOp() { ... }` in the ALU case of `String`. -/
def aluSwitch {R : Type} (ins : Instruction R) (v : Vars) : Vars :=
  let o := OpCode.ALUOp ins.OpCode
  if o = AddOp then { v with opPrefix := "Add" }
  else if o = SubOp then { v with opPrefix := "Sub" }
  else if o = MulOp then { v with opPrefix := "Mul" }
  else if o = DivOp then { v with opPrefix := "Div" }
  else if o = OrOp then { v with opPrefix := "Or" }
  else if o = AndOp then { v with opPrefix := "And" }
  else if o = LShOp then { v with opPrefix := "LSh" }
  else if o = RShOp then { v with opPrefix := "RSh" }
  else if o = NegOp then { v with opPrefix := "Neg" }
  else if o = ModOp then { v with opPrefix := "Mod" }
  else if o = XOrOp then { v with opPrefix := "XOr" }
  else if o = MovOp then { v with opPrefix := "Mov" }
  else if o = ArShOp then { v with opPrefix := "ArSh" }
  else if o = EndOp then
    let v := { v with alu32 := "", src := "", imm := immFrag ins, opPrefix := "LittleEndian" }
    let v := if OpCode.Source ins.OpCode = BigEndian then { v with opPrefix := "BigEndian" } else v
    { v with opPrefix := "" }
  else v

/-- Go: `switch op.BranchOp() { ... }` in the jump case of `String`. -/
def branchSwitch {R : Type} [DecidableEq R] (P : Printers R) (ins : Instruction R)
    (v : Vars) : Vars :=
  let o := OpCode.BranchOp ins.OpCode
  if o = JaOp then { v with opPrefix := "Ja" }
  else if o = JEqOp then { v with opPrefix := "JEq" }
  else if o = JGTOp then { v with opPrefix := "JGT" }
  else if o = JGEOp then { v with opPrefix := "JGE" }
  else if o = JSETOp then { v with opPrefix := "JSET" }
  else if o = JNEOp then { v with opPrefix := "JNE" }
  else if o = JSGTOp then { v with opPrefix := "JSGT" }
  else if o = JSGEOp then { v with opPrefix := "JSGE" }
  else if o = CallOp then
    let v := { v with imm := "", src := "", off := "", dst := "", opPrefix := "Call" }
    if ins.SrcRegister = P.R1 then
      { v with opSuffix := " " ++ sprintD ins.Constant }
    else
      { v with opSuffix := " " ++ P.funcString ins.Constant }
  else if o = ExitOp then
    { v with imm := "", src := "", off := "", dst := "", opSuffix := "", opPrefix := "Exit" }
  else v

/-- Go: the statement `switch cls := op.Class(); cls { ... }` of `String`, as a
function from the variables before it to the variables after it. -/
def classSwitch {R : Type} [DecidableEq R] (P : Printers R) (ins : Instruction R)
    (v : Vars) : Vars :=
  let op := ins.OpCode
  let cls := OpCode.Class op
  if cls = RetClass ∨ cls = LdClass ∨ cls = LdXClass ∨ cls = StClass ∨ cls = StXClass then
    let v := { v with class_ := classMap cls }
    let v := { v with mode := "" }
    let v := { v with xAdd := false }
    let v := { v with dst := dstFrag P ins }
    let v := modeSwitch P ins v
    let v := { v with size := "" }
    let v := sizeSwitch op v
    let v := if v.xAdd then { v with opStr := v.mode ++ v.class_ } else v
    { v with opStr := v.class_ ++ v.mode ++ v.size }
  else if cls = ALU64Class ∨ cls = ALUClass then
    let v := if cls = ALUClass then { v with alu32 := "32" } else v
    let v := { v with dst := dstFrag P ins }
    let v := { v with opSuffix := "" }
    let v := sourceSwitch P ins v
    let v := { v with opPrefix := "" }
    let v := aluSwitch ins v
    { v with opStr := v.opPrefix ++ v.alu32 ++ v.opSuffix }
  else if cls = JmpClass then
    let v := { v with dst := dstFrag P ins }
    let v := { v with off := offFrag ins }
    let v := { v with opSuffix := "" }
    let v := sourceSwitch P ins v
    let v := { v with opPrefix := "" }
    let v := branchSwitch P ins v
    { v with opStr := v.opPrefix ++ v.opSuffix }
  else v

/-- Go: `func (ins Instruction) String() string`. -/
def Instruction.String {R : Type} [DecidableEq R] (P : Printers R) (ins : Instruction R) :
    String :=
  let v := classSwitch P ins {}
  v.opStr ++ v.dst ++ v.src ++ v.off ++ v.imm

/-! ## Labels named by the specification -/

/-- The operator label of each of the thirteen non-endian ALU operators, as the
specification names them (Add, Sub, Mul, Div, Or, And, LSh, RSh, Neg, Mod, XOr, Mov,
ArSh). -/
def aluOpLabel (o : ALUOp) : String :=
  if o = AddOp then "Add"
  else if o = SubOp then "Sub"
  else if o = MulOp then "Mul"
  else if o = DivOp then "Div"
  else if o = OrOp then "Or"
  else if o = AndOp then "And"
  else if o = LShOp then "LSh"
  else if o = RShOp then "RSh"
  else if o = NegOp then "Neg"
  else if o = ModOp then "Mod"
  else if o = XOrOp then "XOr"
  else if o = MovOp then "Mov"
  else if o = ArShOp then "ArSh"
  else ""

/-- The thirteen named non-endian ALU operators. -/
def nonEndianOps : List ALUOp :=
  [AddOp, SubOp, MulOp, DivOp, OrOp, AndOp, LShOp, RShOp, NegOp, ModOp, XOrOp, MovOp, ArShOp]

/-- The width marker: `32` for the 32-bit ALU class, empty otherwise. -/
def widthMarker (cls : Class) : String :=
  if cls = ALUClass then "32" else ""

/-- The addressing-mode label of the load/store rule: `MemMode` (and the unnamed
mode 0xe0) has none. -/
def modeLabel (m : Mode) : String :=
  if m = ImmMode then "Imm"
  else if m = AbsMode then "Abs"
  else if m = IndMode then "Ind"
  else if m = LenMode then "Len"
  else if m = MshMode then "Msh"
  else if m = XAddMode then "XAdd"
  else ""

/-- The size label of the load/store rule (`B`, `H`, `W`, `DW`). -/
def sizeLabel (s : Size) : String :=
  if s = BSize then "B"
  else if s = HSize then "H"
  else if s = WSize then "W"
  else if s = DWSize then "DW"
  else ""

/-- The mnemonic of the load/store rule: class label, addressing-mode label, size
label. -/
def loadStoreMnemonic (op : OpCode) : String :=
  classMap (OpCode.Class op) ++ modeLabel (OpCode.Mode op) ++ sizeLabel (OpCode.Size op)

/-- The operator label of each named branch operator. -/
def branchOpLabel (o : BranchOp) : String :=
  if o = JaOp then "Ja"
  else if o = JEqOp then "JEq"
  else if o = JGTOp then "JGT"
  else if o = JGEOp then "JGE"
  else if o = JSETOp then "JSET"
  else if o = JNEOp then "JNE"
  else if o = JSGTOp then "JSGT"
  else if o = JSGEOp then "JSGE"
  else if o = CallOp then "Call"
  else if o = ExitOp then "Exit"
  else ""

/-! ## Concrete parameters used to evaluate the formatter -/

/-- A register numbering `r0`, `r1`, ... used to evaluate the formatter on
concrete instructions: register `n` prints as `r` followed by `n`, the first-argument
register `R1` is number 1, and helper `c` prints as `Func(c)`. -/
def natPrinters : Printers Nat where
  regString := fun r => "r" ++ toString r
  R1 := 1
  funcString := fun c => "Func(" ++ sprintD c ++ ")"

/-! ## Auxiliary facts about bytes -/

set_option maxRecDepth 100000 in
/-- The only byte that decodes to load class, immediate mode and double-word size. -/
lemma wide_load_byte (op : OpCode) (hb : op < 256) (hc : OpCode.Class op = LdClass)
    (hm : OpCode.Mode op = ImmMode) (hs : OpCode.Size op = DWSize) : op = 0x18 := by
  revert hs
  revert hm
  revert hc
  revert op
  decide

set_option maxRecDepth 100000 in
/-- In the arithmetic/branch family the source kind is one of the two named values. -/
lemma source_imm_or_reg (op : OpCode) (hb : op < 256)
    (hc : Class.isArithBranch (OpCode.Class op)) :
    OpCode.Source op = ImmSource ∨ OpCode.Source op = RegSource := by
  revert hc
  revert op
  decide

/-- Joining a literal blank onto the label `Call`. -/
lemma call_blank (x : String) : "Call" ++ (" " ++ x) = "Call " ++ x := by
  rw [← String.append_assoc]
  rfl

/-! ## The variables of `String` after each switch -/

/-- What `switch op.Mode()` leaves in each variable. -/
lemma modeSwitch_fields {R : Type} (P : Printers R) (ins : Instruction R) (v : Vars)
    (hmode : v.mode = "") :
    (modeSwitch P ins v).mode = modeLabel (OpCode.Mode ins.OpCode) ∧
    (modeSwitch P ins v).class_ = v.class_ ∧
    (modeSwitch P ins v).size = v.size ∧
    (modeSwitch P ins v).xAdd = (v.xAdd || decide (OpCode.Mode ins.OpCode = XAddMode)) ∧
    (modeSwitch P ins v).dst = (if OpCode.Mode ins.OpCode = AbsMode then "" else v.dst) ∧
    (modeSwitch P ins v).src =
      (if OpCode.Mode ins.OpCode = IndMode ∨ OpCode.Mode ins.OpCode = MemMode ∨
          OpCode.Mode ins.OpCode = XAddMode then srcFrag P ins else v.src) ∧
    (modeSwitch P ins v).off =
      (if OpCode.Mode ins.OpCode = MemMode then offFrag ins
        else if OpCode.Mode ins.OpCode = AbsMode ∨ OpCode.Mode ins.OpCode = IndMode then ""
        else v.off) ∧
    (modeSwitch P ins v).imm =
      (if OpCode.Mode ins.OpCode = ImmMode ∨ OpCode.Mode ins.OpCode = AbsMode ∨
          OpCode.Mode ins.OpCode = IndMode ∨ OpCode.Mode ins.OpCode = MemMode
        then immFrag ins else v.imm) := by
  unfold modeSwitch modeLabel
  simp only []
  split_ifs <;> simp_all

/-- What `switch op.Size()` leaves in each variable. -/
lemma sizeSwitch_fields (op : OpCode) (v : Vars) (hsize : v.size = "") :
    (sizeSwitch op v).size = sizeLabel (OpCode.Size op) ∧
    (sizeSwitch op v).mode = v.mode ∧ (sizeSwitch op v).class_ = v.class_ ∧
    (sizeSwitch op v).xAdd = v.xAdd ∧ (sizeSwitch op v).dst = v.dst ∧
    (sizeSwitch op v).src = v.src ∧ (sizeSwitch op v).off = v.off ∧
    (sizeSwitch op v).imm = v.imm := by
  unfold sizeSwitch sizeLabel
  simp only []
  split_ifs <;> simp_all

/-- The conditional assignment to `opStr` leaves every other variable alone. -/
lemma ite_opStr_fields (c : Bool) (v : Vars) (s : String) :
    (if c then { v with opStr := s } else v).class_ = v.class_ ∧
    (if c then { v with opStr := s } else v).mode = v.mode ∧
    (if c then { v with opStr := s } else v).size = v.size ∧
    (if c then { v with opStr := s } else v).dst = v.dst ∧
    (if c then { v with opStr := s } else v).src = v.src ∧
    (if c then { v with opStr := s } else v).off = v.off ∧
    (if c then { v with opStr := s } else v).imm = v.imm := by
  cases c <;> simp

/-- The variables after the class switch, in its first case (return, load, store). -/
lemma classSwitch_loadStore {R : Type} [DecidableEq R] (P : Printers R) (ins : Instruction R)
    (hc : OpCode.Class ins.OpCode = RetClass ∨ Class.isLoadStore (OpCode.Class ins.OpCode)) :
    (classSwitch P ins {}).opStr = loadStoreMnemonic ins.OpCode ∧
    (classSwitch P ins {}).dst =
      (if OpCode.Mode ins.OpCode = AbsMode then "" else dstFrag P ins) ∧
    (classSwitch P ins {}).src =
      (if OpCode.Mode ins.OpCode = IndMode ∨ OpCode.Mode ins.OpCode = MemMode ∨
          OpCode.Mode ins.OpCode = XAddMode then srcFrag P ins else "") ∧
    (classSwitch P ins {}).off =
      (if OpCode.Mode ins.OpCode = MemMode then offFrag ins else "") ∧
    (classSwitch P ins {}).imm =
      (if OpCode.Mode ins.OpCode = ImmMode ∨ OpCode.Mode ins.OpCode = AbsMode ∨
          OpCode.Mode ins.OpCode = IndMode ∨ OpCode.Mode ins.OpCode = MemMode
        then immFrag ins else "") := by
  have hcond : OpCode.Class ins.OpCode = RetClass ∨ OpCode.Class ins.OpCode = LdClass ∨
      OpCode.Class ins.OpCode = LdXClass ∨ OpCode.Class ins.OpCode = StClass ∨
      OpCode.Class ins.OpCode = StXClass := hc
  obtain ⟨v1, hv1⟩ : ∃ v1 : Vars, v1 =
      { class_ := classMap (OpCode.Class ins.OpCode), dst := dstFrag P ins } := ⟨_, rfl⟩
  obtain ⟨v2, hv2⟩ : ∃ v2 : Vars, v2 = { modeSwitch P ins v1 with size := "" } := ⟨_, rfl⟩
  obtain ⟨v3, hv3⟩ : ∃ v3 : Vars, v3 = sizeSwitch ins.OpCode v2 := ⟨_, rfl⟩
  obtain ⟨v4, hv4⟩ : ∃ v4 : Vars,
      v4 = if v3.xAdd then { v3 with opStr := v3.mode ++ v3.class_ } else v3 := ⟨_, rfl⟩
  have hfin : classSwitch P ins {} = { v4 with opStr := v4.class_ ++ v4.mode ++ v4.size } := by
    unfold classSwitch
    simp only [if_pos hcond]
    rw [hv4, hv3, hv2, hv1]
  have hm := modeSwitch_fields P ins v1 (by rw [hv1])
  have hs := sizeSwitch_fields ins.OpCode v2 (by rw [hv2])
  have hi := ite_opStr_fields v3.xAdd v3 (v3.mode ++ v3.class_)
  rw [← hv4] at hi
  rw [← hv3] at hs
  have e2 : v2.mode = (modeSwitch P ins v1).mode ∧ v2.class_ = (modeSwitch P ins v1).class_ ∧
      v2.dst = (modeSwitch P ins v1).dst ∧ v2.src = (modeSwitch P ins v1).src ∧
      v2.off = (modeSwitch P ins v1).off ∧ v2.imm = (modeSwitch P ins v1).imm := by
    rw [hv2]; exact ⟨rfl, rfl, rfl, rfl, rfl, rfl⟩
  have e1 : v1.class_ = classMap (OpCode.Class ins.OpCode) ∧ v1.dst = dstFrag P ins ∧
      v1.src = "" ∧ v1.off = "" ∧ v1.imm = "" := by
    rw [hv1]; exact ⟨rfl, rfl, rfl, rfl, rfl⟩
  rw [hfin]
  refine ⟨?_, ?_, ?_, ?_, ?_⟩
  · show v4.class_ ++ v4.mode ++ v4.size = _
    rw [hi.1, hi.2.1, hi.2.2.1, hs.1, hs.2.1, hs.2.2.1, e2.1, e2.2.1, hm.1, hm.2.1, e1.1]
    rfl
  · show v4.dst = _
    rw [hi.2.2.2.1, hs.2.2.2.2.1, e2.2.2.1, hm.2.2.2.2.1, e1.2.1]
  · show v4.src = _
    rw [hi.2.2.2.2.1, hs.2.2.2.2.2.1, e2.2.2.2.1, hm.2.2.2.2.2.1, e1.2.2.1]
  · show v4.off = _
    rw [hi.2.2.2.2.2.1, hs.2.2.2.2.2.2.1, e2.2.2.2.2.1, hm.2.2.2.2.2.2.1, e1.2.2.2.1]
    split_ifs <;> rfl
  · show v4.imm = _
    rw [hi.2.2.2.2.2.2, hs.2.2.2.2.2.2.2, e2.2.2.2.2.2, hm.2.2.2.2.2.2.2, e1.2.2.2.2]

/-- What the source-kind statement leaves in each variable. -/
lemma sourceSwitch_fields {R : Type} (P : Printers R) (ins : Instruction R) (v : Vars) :
    (sourceSwitch P ins v).opSuffix =
      (if OpCode.Source ins.OpCode = ImmSource then "Imm" else "Src") ∧
    (sourceSwitch P ins v).imm =
      (if OpCode.Source ins.OpCode = ImmSource then immFrag ins else v.imm) ∧
    (sourceSwitch P ins v).src =
      (if OpCode.Source ins.OpCode = ImmSource then v.src else srcFrag P ins) ∧
    (sourceSwitch P ins v).dst = v.dst ∧ (sourceSwitch P ins v).off = v.off ∧
    (sourceSwitch P ins v).alu32 = v.alu32 ∧ (sourceSwitch P ins v).opPrefix = v.opPrefix ∧
    (sourceSwitch P ins v).class_ = v.class_ ∧ (sourceSwitch P ins v).mode = v.mode ∧
    (sourceSwitch P ins v).size = v.size := by
  unfold sourceSwitch
  split_ifs <;> simp_all

/-- What `switch op.ALUOp()` leaves in each variable. -/
lemma aluSwitch_fields {R : Type} (ins : Instruction R) (v : Vars) (hp : v.opPrefix = "") :
    (aluSwitch ins v).opPrefix = aluOpLabel (OpCode.ALUOp ins.OpCode) ∧
    (aluSwitch ins v).alu32 = (if OpCode.ALUOp ins.OpCode = EndOp then "" else v.alu32) ∧
    (aluSwitch ins v).src = (if OpCode.ALUOp ins.OpCode = EndOp then "" else v.src) ∧
    (aluSwitch ins v).imm =
      (if OpCode.ALUOp ins.OpCode = EndOp then immFrag ins else v.imm) ∧
    (aluSwitch ins v).dst = v.dst ∧ (aluSwitch ins v).off = v.off ∧
    (aluSwitch ins v).opSuffix = v.opSuffix ∧
    (aluSwitch ins v).class_ = v.class_ ∧ (aluSwitch ins v).mode = v.mode ∧
    (aluSwitch ins v).size = v.size := by
  have hcases : OpCode.ALUOp ins.OpCode = AddOp ∨ OpCode.ALUOp ins.OpCode = SubOp ∨
      OpCode.ALUOp ins.OpCode = MulOp ∨ OpCode.ALUOp ins.OpCode = DivOp ∨
      OpCode.ALUOp ins.OpCode = OrOp ∨ OpCode.ALUOp ins.OpCode = AndOp ∨
      OpCode.ALUOp ins.OpCode = LShOp ∨ OpCode.ALUOp ins.OpCode = RShOp ∨
      OpCode.ALUOp ins.OpCode = NegOp ∨ OpCode.ALUOp ins.OpCode = ModOp ∨
      OpCode.ALUOp ins.OpCode = XOrOp ∨ OpCode.ALUOp ins.OpCode = MovOp ∨
      OpCode.ALUOp ins.OpCode = ArShOp ∨ OpCode.ALUOp ins.OpCode = EndOp ∨
      (OpCode.ALUOp ins.OpCode ≠ AddOp ∧ OpCode.ALUOp ins.OpCode ≠ SubOp ∧
        OpCode.ALUOp ins.OpCode ≠ MulOp ∧ OpCode.ALUOp ins.OpCode ≠ DivOp ∧
        OpCode.ALUOp ins.OpCode ≠ OrOp ∧ OpCode.ALUOp ins.OpCode ≠ AndOp ∧
        OpCode.ALUOp ins.OpCode ≠ LShOp ∧ OpCode.ALUOp ins.OpCode ≠ RShOp ∧
        OpCode.ALUOp ins.OpCode ≠ NegOp ∧ OpCode.ALUOp ins.OpCode ≠ ModOp ∧
        OpCode.ALUOp ins.OpCode ≠ XOrOp ∧ OpCode.ALUOp ins.OpCode ≠ MovOp ∧
        OpCode.ALUOp ins.OpCode ≠ ArShOp ∧ OpCode.ALUOp ins.OpCode ≠ EndOp) := by
    tauto
  rcases hcases with h | h | h | h | h | h | h | h | h | h | h | h | h | h |
      ⟨h1, h2, h3, h4, h5, h6, h7, h8, h9, h10, h11, h12, h13, h14⟩
  on_goal 15 =>
    simp only [aluSwitch, aluOpLabel, if_neg h1, if_neg h2, if_neg h3, if_neg h4, if_neg h5,
      if_neg h6, if_neg h7, if_neg h8, if_neg h9, if_neg h10, if_neg h11, if_neg h12,
      if_neg h13, if_neg h14, hp, and_self]
  on_goal 14 =>
    by_cases hs : OpCode.Source ins.OpCode = BigEndian <;> simp [aluSwitch, aluOpLabel, h, hs]
  all_goals simp [aluSwitch, aluOpLabel, h]

/-- What `switch op.BranchOp()` leaves in each variable. -/
lemma branchSwitch_fields {R : Type} [DecidableEq R] (P : Printers R) (ins : Instruction R)
    (v : Vars) (hp : v.opPrefix = "") :
    (branchSwitch P ins v).opPrefix = branchOpLabel (OpCode.BranchOp ins.OpCode) ∧
    (branchSwitch P ins v).opSuffix =
      (if OpCode.BranchOp ins.OpCode = CallOp then
        (if ins.SrcRegister = P.R1 then " " ++ sprintD ins.Constant
          else " " ++ P.funcString ins.Constant)
        else if OpCode.BranchOp ins.OpCode = ExitOp then "" else v.opSuffix) ∧
    (branchSwitch P ins v).dst =
      (if OpCode.BranchOp ins.OpCode = CallOp ∨ OpCode.BranchOp ins.OpCode = ExitOp then ""
        else v.dst) ∧
    (branchSwitch P ins v).src =
      (if OpCode.BranchOp ins.OpCode = CallOp ∨ OpCode.BranchOp ins.OpCode = ExitOp then ""
        else v.src) ∧
    (branchSwitch P ins v).off =
      (if OpCode.BranchOp ins.OpCode = CallOp ∨ OpCode.BranchOp ins.OpCode = ExitOp then ""
        else v.off) ∧
    (branchSwitch P ins v).imm =
      (if OpCode.BranchOp ins.OpCode = CallOp ∨ OpCode.BranchOp ins.OpCode = ExitOp then ""
        else v.imm) ∧
    (branchSwitch P ins v).alu32 = v.alu32 ∧
    (branchSwitch P ins v).class_ = v.class_ ∧ (branchSwitch P ins v).mode = v.mode ∧
    (branchSwitch P ins v).size = v.size := by
  have hcases : OpCode.BranchOp ins.OpCode = JaOp ∨ OpCode.BranchOp ins.OpCode = JEqOp ∨
      OpCode.BranchOp ins.OpCode = JGTOp ∨ OpCode.BranchOp ins.OpCode = JGEOp ∨
      OpCode.BranchOp ins.OpCode = JSETOp ∨ OpCode.BranchOp ins.OpCode = JNEOp ∨
      OpCode.BranchOp ins.OpCode = JSGTOp ∨ OpCode.BranchOp ins.OpCode = JSGEOp ∨
      OpCode.BranchOp ins.OpCode = CallOp ∨ OpCode.BranchOp ins.OpCode = ExitOp ∨
      (OpCode.BranchOp ins.OpCode ≠ JaOp ∧ OpCode.BranchOp ins.OpCode ≠ JEqOp ∧
        OpCode.BranchOp ins.OpCode ≠ JGTOp ∧ OpCode.BranchOp ins.OpCode ≠ JGEOp ∧
        OpCode.BranchOp ins.OpCode ≠ JSETOp ∧ OpCode.BranchOp ins.OpCode ≠ JNEOp ∧
        OpCode.BranchOp ins.OpCode ≠ JSGTOp ∧ OpCode.BranchOp ins.OpCode ≠ JSGEOp ∧
        OpCode.BranchOp ins.OpCode ≠ CallOp ∧ OpCode.BranchOp ins.OpCode ≠ ExitOp) := by
    tauto
  rcases hcases with h | h | h | h | h | h | h | h | h | h |
      ⟨h1, h2, h3, h4, h5, h6, h7, h8, h9, h10⟩
  on_goal 11 =>
    simp only [branchSwitch, branchOpLabel, if_neg h1, if_neg h2, if_neg h3, if_neg h4,
      if_neg h5, if_neg h6, if_neg h7, if_neg h8, if_neg h9, if_neg h10, hp, h9, h10,
      or_self, if_false, and_self]
  on_goal 9 =>
    by_cases hr : ins.SrcRegister = P.R1 <;> simp [branchSwitch, branchOpLabel, h, hr]
  all_goals simp [branchSwitch, branchOpLabel, h]

/-- The variables after the class switch, in its ALU case. -/
lemma classSwitch_alu {R : Type} [DecidableEq R] (P : Printers R) (ins : Instruction R)
    (hc : OpCode.Class ins.OpCode = ALU64Class ∨ OpCode.Class ins.OpCode = ALUClass) :
    (classSwitch P ins {}).opStr =
      aluOpLabel (OpCode.ALUOp ins.OpCode) ++
        (if OpCode.ALUOp ins.OpCode = EndOp then ""
          else if OpCode.Class ins.OpCode = ALUClass then "32" else "") ++
        (if OpCode.Source ins.OpCode = ImmSource then "Imm" else "Src") ∧
    (classSwitch P ins {}).dst = dstFrag P ins ∧
    (classSwitch P ins {}).src =
      (if OpCode.ALUOp ins.OpCode = EndOp then ""
        else if OpCode.Source ins.OpCode = ImmSource then "" else srcFrag P ins) ∧
    (classSwitch P ins {}).off = "" ∧
    (classSwitch P ins {}).imm =
      (if OpCode.ALUOp ins.OpCode = EndOp then immFrag ins
        else if OpCode.Source ins.OpCode = ImmSource then immFrag ins else "") ∧
    (classSwitch P ins {}).opPrefix = aluOpLabel (OpCode.ALUOp ins.OpCode) ∧
    (classSwitch P ins {}).opSuffix =
      (if OpCode.Source ins.OpCode = ImmSource then "Imm" else "Src") ∧
    (classSwitch P ins {}).class_ = "" ∧ (classSwitch P ins {}).mode = "" ∧
    (classSwitch P ins {}).size = "" := by
  have hn : ¬ (OpCode.Class ins.OpCode = RetClass ∨ OpCode.Class ins.OpCode = LdClass ∨
      OpCode.Class ins.OpCode = LdXClass ∨ OpCode.Class ins.OpCode = StClass ∨
      OpCode.Class ins.OpCode = StXClass) := by
    rcases hc with h | h <;> rw [h] <;> decide
  obtain ⟨v0, hv0⟩ : ∃ v0 : Vars, v0 =
      if OpCode.Class ins.OpCode = ALUClass then { ({} : Vars) with alu32 := "32" } else {} :=
    ⟨_, rfl⟩
  obtain ⟨v1, hv1⟩ : ∃ v1 : Vars, v1 = { { v0 with dst := dstFrag P ins } with opSuffix := "" } :=
    ⟨_, rfl⟩
  obtain ⟨v2, hv2⟩ : ∃ v2 : Vars, v2 = { sourceSwitch P ins v1 with opPrefix := "" } := ⟨_, rfl⟩
  obtain ⟨v3, hv3⟩ : ∃ v3 : Vars, v3 = aluSwitch ins v2 := ⟨_, rfl⟩
  have hfin : classSwitch P ins {} = { v3 with opStr := v3.opPrefix ++ v3.alu32 ++ v3.opSuffix } := by
    unfold classSwitch
    simp only [if_neg hn, if_pos hc]
    rw [hv3, hv2, hv1, hv0]
  have e0 : v0.alu32 = (if OpCode.Class ins.OpCode = ALUClass then "32" else "") ∧
      v0.src = "" ∧ v0.off = "" ∧ v0.imm = "" ∧ v0.class_ = "" ∧ v0.mode = "" ∧ v0.size = "" := by
    rw [hv0]; split_ifs <;> exact ⟨rfl, rfl, rfl, rfl, rfl, rfl, rfl⟩
  have e1 : v1.alu32 = v0.alu32 ∧ v1.dst = dstFrag P ins ∧ v1.src = v0.src ∧ v1.off = v0.off ∧
      v1.imm = v0.imm ∧ v1.class_ = v0.class_ ∧ v1.mode = v0.mode ∧ v1.size = v0.size := by
    rw [hv1]; exact ⟨rfl, rfl, rfl, rfl, rfl, rfl, rfl, rfl⟩
  have hs := sourceSwitch_fields P ins v1
  have e2 : v2.opSuffix = (sourceSwitch P ins v1).opSuffix ∧
      v2.imm = (sourceSwitch P ins v1).imm ∧ v2.src = (sourceSwitch P ins v1).src ∧
      v2.dst = (sourceSwitch P ins v1).dst ∧ v2.off = (sourceSwitch P ins v1).off ∧
      v2.alu32 = (sourceSwitch P ins v1).alu32 ∧ v2.class_ = (sourceSwitch P ins v1).class_ ∧
      v2.mode = (sourceSwitch P ins v1).mode ∧ v2.size = (sourceSwitch P ins v1).size := by
    rw [hv2]; exact ⟨rfl, rfl, rfl, rfl, rfl, rfl, rfl, rfl, rfl⟩
  have ha := aluSwitch_fields ins v2 (by rw [hv2])
  rw [← hv3] at ha
  obtain ⟨a1, a2, a3, a4, a5, a6, a7, a8, a9, a10⟩ := ha
  obtain ⟨s1, s2, s3, s4, s5, s6, -, s8, s9, s10⟩ := hs
  obtain ⟨b1, b2, b3, b4, b5, b6, b7, b8, b9⟩ := e2
  obtain ⟨c1, c2, c3, c4, c5, c6, c7, c8⟩ := e1
  obtain ⟨d1, d2, d3, d4, d5, d6, d7⟩ := e0
  rw [hfin]
  refine ⟨?_, ?_, ?_, ?_, ?_, ?_, ?_, ?_, ?_, ?_⟩
  · show v3.opPrefix ++ v3.alu32 ++ v3.opSuffix = _
    rw [a1, a2, a7, b6, b1, s6, s1, c1, d1]
  · show v3.dst = _
    rw [a5, b4, s4, c2]
  · show v3.src = _
    rw [a3, b3, s3, c3, d2]
  · show v3.off = _
    rw [a6, b5, s5, c4, d3]
  · show v3.imm = _
    rw [a4, b2, s2, c5, d4]
  · show v3.opPrefix = _
    rw [a1]
  · show v3.opSuffix = _
    rw [a7, b1, s1]
  · show v3.class_ = _
    rw [a8, b7, s8, c6, d5]
  · show v3.mode = _
    rw [a9, b8, s9, c7, d6]
  · show v3.size = _
    rw [a10, b9, s10, c8, d7]

/-- The variables after the class switch, in its jump case. -/
lemma classSwitch_jmp {R : Type} [DecidableEq R] (P : Printers R) (ins : Instruction R)
    (hc : OpCode.Class ins.OpCode = JmpClass) :
    (classSwitch P ins {}).opStr =
      branchOpLabel (OpCode.BranchOp ins.OpCode) ++
        (if OpCode.BranchOp ins.OpCode = CallOp then
          (if ins.SrcRegister = P.R1 then " " ++ sprintD ins.Constant
            else " " ++ P.funcString ins.Constant)
          else if OpCode.BranchOp ins.OpCode = ExitOp then ""
          else if OpCode.Source ins.OpCode = ImmSource then "Imm" else "Src") ∧
    (classSwitch P ins {}).dst =
      (if OpCode.BranchOp ins.OpCode = CallOp ∨ OpCode.BranchOp ins.OpCode = ExitOp then ""
        else dstFrag P ins) ∧
    (classSwitch P ins {}).src =
      (if OpCode.BranchOp ins.OpCode = CallOp ∨ OpCode.BranchOp ins.OpCode = ExitOp then ""
        else if OpCode.Source ins.OpCode = ImmSource then "" else srcFrag P ins) ∧
    (classSwitch P ins {}).off =
      (if OpCode.BranchOp ins.OpCode = CallOp ∨ OpCode.BranchOp ins.OpCode = ExitOp then ""
        else offFrag ins) ∧
    (classSwitch P ins {}).imm =
      (if OpCode.BranchOp ins.OpCode = CallOp ∨ OpCode.BranchOp ins.OpCode = ExitOp then ""
        else if OpCode.Source ins.OpCode = ImmSource then immFrag ins else "") ∧
    (classSwitch P ins {}).opPrefix = branchOpLabel (OpCode.BranchOp ins.OpCode) ∧
    (classSwitch P ins {}).alu32 = "" ∧
    (classSwitch P ins {}).class_ = "" ∧ (classSwitch P ins {}).mode = "" ∧
    (classSwitch P ins {}).size = "" := by
  have hn1 : ¬ (OpCode.Class ins.OpCode = RetClass ∨ OpCode.Class ins.OpCode = LdClass ∨
      OpCode.Class ins.OpCode = LdXClass ∨ OpCode.Class ins.OpCode = StClass ∨
      OpCode.Class ins.OpCode = StXClass) := by
    rw [hc]; decide
  have hn2 : ¬ (OpCode.Class ins.OpCode = ALU64Class ∨ OpCode.Class ins.OpCode = ALUClass) := by
    rw [hc]; decide
  obtain ⟨v1, hv1⟩ : ∃ v1 : Vars, v1 =
      { { { ({} : Vars) with dst := dstFrag P ins } with off := offFrag ins } with
        opSuffix := "" } := ⟨_, rfl⟩
  obtain ⟨v2, hv2⟩ : ∃ v2 : Vars, v2 = { sourceSwitch P ins v1 with opPrefix := "" } := ⟨_, rfl⟩
  obtain ⟨v3, hv3⟩ : ∃ v3 : Vars, v3 = branchSwitch P ins v2 := ⟨_, rfl⟩
  have hfin : classSwitch P ins {} = { v3 with opStr := v3.opPrefix ++ v3.opSuffix } := by
    unfold classSwitch
    simp only [if_neg hn1, if_neg hn2, if_pos hc]
    rw [hv3, hv2, hv1]
  have e1 : v1.alu32 = "" ∧ v1.dst = dstFrag P ins ∧ v1.src = "" ∧ v1.off = offFrag ins ∧
      v1.imm = "" ∧ v1.class_ = "" ∧ v1.mode = "" ∧ v1.size = "" := by
    rw [hv1]; exact ⟨rfl, rfl, rfl, rfl, rfl, rfl, rfl, rfl⟩
  have hs := sourceSwitch_fields P ins v1
  have e2 : v2.opSuffix = (sourceSwitch P ins v1).opSuffix ∧
      v2.imm = (sourceSwitch P ins v1).imm ∧ v2.src = (sourceSwitch P ins v1).src ∧
      v2.dst = (sourceSwitch P ins v1).dst ∧ v2.off = (sourceSwitch P ins v1).off ∧
      v2.alu32 = (sourceSwitch P ins v1).alu32 ∧ v2.class_ = (sourceSwitch P ins v1).class_ ∧
      v2.mode = (sourceSwitch P ins v1).mode ∧ v2.size = (sourceSwitch P ins v1).size := by
    rw [hv2]; exact ⟨rfl, rfl, rfl, rfl, rfl, rfl, rfl, rfl, rfl⟩
  have ha := branchSwitch_fields P ins v2 (by rw [hv2])
  rw [← hv3] at ha
  obtain ⟨a1, a2, a3, a4, a5, a6, a7, a8, a9, a10⟩ := ha
  obtain ⟨s1, s2, s3, s4, s5, s6, -, s8, s9, s10⟩ := hs
  obtain ⟨b1, b2, b3, b4, b5, b6, b7, b8, b9⟩ := e2
  obtain ⟨c1, c2, c3, c4, c5, c6, c7, c8⟩ := e1
  rw [hfin]
  refine ⟨?_, ?_, ?_, ?_, ?_, ?_, ?_, ?_, ?_, ?_⟩
  · show v3.opPrefix ++ v3.opSuffix = _
    rw [a1, a2, b1, s1]
  · show v3.dst = _
    rw [a3, b4, s4, c2]
  · show v3.src = _
    rw [a4, b3, s3, c3]
  · show v3.off = _
    rw [a5, b5, s5, c4]
  · show v3.imm = _
    rw [a6, b2, s2, c5]
  · show v3.opPrefix = _
    rw [a1]
  · show v3.alu32 = _
    rw [a7, b6, s6, c1]
  · show v3.class_ = _
    rw [a8, b7, s8, c6]
  · show v3.mode = _
    rw [a9, b8, s9, c7]
  · show v3.size = _
    rw [a10, b9, s10, c8]

/-! ## Codec theorems -/

set_option maxRecDepth 100000 in
/-- Claim C1: for every byte whose class is in the load/store family, the bitwise
OR of the raw values of `Class()`, `Mode()` and `Size()` is the byte itself. -/
theorem loadStore_roundtrip (op : OpCode) (hb : op < 256)
    (hc : Class.isLoadStore (OpCode.Class op)) :
    OpCode.Class op ||| OpCode.Mode op ||| OpCode.Size op = op := by
  revert hc
  revert op
  decide

/-- Witness for C1 at `StXClass | MemMode | DWSize` (0x7b). -/
theorem loadStore_roundtrip_witness :
    (0x7b : OpCode) < 256 ∧ Class.isLoadStore (OpCode.Class 0x7b) ∧
      OpCode.Class 0x7b ||| OpCode.Mode 0x7b ||| OpCode.Size 0x7b = 0x7b :=
  ⟨by decide, by decide, loadStore_roundtrip 0x7b (by decide) (by decide)⟩

set_option maxRecDepth 100000 in
/-- Claim C2: for every byte whose class is in the arithmetic/branch family, the
bitwise OR of `Class()`, `Source()` and `ALUOp()` is the byte itself, and so is the
bitwise OR of `Class()`, `Source()` and `BranchOp()`. -/
theorem arithBranch_roundtrip (op : OpCode) (hb : op < 256)
    (hc : Class.isArithBranch (OpCode.Class op)) :
    OpCode.Class op ||| OpCode.Source op ||| OpCode.ALUOp op = op ∧
      OpCode.Class op ||| OpCode.Source op ||| OpCode.BranchOp op = op := by
  revert hc
  revert op
  decide

/-- Witness for C2 at `JmpClass | RegSource | JSGEOp` (0x7d). -/
theorem arithBranch_roundtrip_witness :
    (0x7d : OpCode) < 256 ∧ Class.isArithBranch (OpCode.Class 0x7d) ∧
      OpCode.Class 0x7d ||| OpCode.Source 0x7d ||| OpCode.ALUOp 0x7d = 0x7d ∧
      OpCode.Class 0x7d ||| OpCode.Source 0x7d ||| OpCode.BranchOp 0x7d = 0x7d :=
  ⟨by decide, by decide, arithBranch_roundtrip 0x7d (by decide) (by decide)⟩

set_option maxRecDepth 100000 in
/-- Claim C3: for every byte, `Mode()` and `Size()` return their invalid sentinel
exactly when the class is ALU, ALU64, Jmp or Ret, and `Source()`, `ALUOp()` and
`BranchOp()` return theirs exactly when the class is Ld, LdX, St or StX; so an
in-family call never yields the sentinel. -/
theorem sentinel_iff_outside_family (op : OpCode) (hb : op < 256) :
    (OpCode.Mode op = InvalidMode ↔ Class.isArithBranch (OpCode.Class op)) ∧
    (OpCode.Size op = InvalidSize ↔ Class.isArithBranch (OpCode.Class op)) ∧
    (OpCode.Source op = InvalidSource ↔ Class.isLoadStore (OpCode.Class op)) ∧
    (OpCode.ALUOp op = InvalidALUOp ↔ Class.isLoadStore (OpCode.Class op)) ∧
    (OpCode.BranchOp op = InvalidBranchOp ↔ Class.isLoadStore (OpCode.Class op)) ∧
    (Class.isLoadStore (OpCode.Class op) →
      OpCode.Mode op ≠ InvalidMode ∧ OpCode.Size op ≠ InvalidSize) ∧
    (Class.isArithBranch (OpCode.Class op) →
      OpCode.Source op ≠ InvalidSource ∧ OpCode.ALUOp op ≠ InvalidALUOp ∧
        OpCode.BranchOp op ≠ InvalidBranchOp) := by
  revert op
  decide

/-- Witness for C3 at the all-ones byte 0xff, whose class is ALU64. -/
theorem sentinel_iff_outside_family_witness :
    (0xff : OpCode) < 256 ∧ OpCode.Mode 0xff = InvalidMode ∧
      OpCode.Source 0xff ≠ InvalidSource :=
  ⟨by decide,
    (sentinel_iff_outside_family 0xff (by decide)).1.2 (by decide),
    ((sentinel_iff_outside_family 0xff (by decide)).2.2.2.2.2.2 (by decide)).1⟩

/-- Claim C4: an instruction whose opcode is a wide immediate load (class `LdClass`,
mode `ImmMode`, size `DWSize`, which is the opcode byte 0x18) has `EncodedLength()` 2,
whatever its registers, offset, constant, reference and symbol. -/
theorem encodedLength_wide_load {R : Type} (ins : Instruction R) (hb : ins.OpCode < 256)
    (hc : OpCode.Class ins.OpCode = LdClass) (hm : OpCode.Mode ins.OpCode = ImmMode)
    (hs : OpCode.Size ins.OpCode = DWSize) :
    ins.OpCode = 0x18 ∧ ins.EncodedLength = 2 :=
  ⟨wide_load_byte ins.OpCode hb hc hm hs, if_pos hs⟩

/-- Witness for C4: the wide load `0x18` with arbitrary other fields. -/
theorem encodedLength_wide_load_witness :
    (⟨0x18, 1, 9, -3, 77, "map", "entry"⟩ : Instruction Nat).OpCode = 0x18 ∧
      (⟨0x18, 1, 9, -3, 77, "map", "entry"⟩ : Instruction Nat).EncodedLength = 2 :=
  encodedLength_wide_load ⟨0x18, 1, 9, -3, 77, "map", "entry"⟩ (by decide) (by decide)
    (by decide) (by decide)

/-- Claim C5, the code at a double-word store: `StXClass | MemMode | DWSize` (0x7b)
is in store class and memory mode, not a wide immediate load, yet `EncodedLength()`
is 2 because only the size bits are inspected. -/
theorem encodedLength_dword_store :
    OpCode.Class 0x7b = StXClass ∧ OpCode.Mode 0x7b = MemMode ∧
      OpCode.Size 0x7b = DWSize ∧
      Instruction.EncodedLength (⟨0x7b, 10, 1, -8, 0, "", ""⟩ : Instruction Nat) = 2 := by
  decide

set_option maxRecDepth 100000 in
/-- Claim C6: for every byte, `Class()` is the low three bits, it is one of the eight
defined class tags, and the tag lies in exactly one of the two encoding families:
`encoding()` is `loadOrStore` or `branchOrALU`, never `unknownEncoding`. -/
theorem class_total (op : OpCode) (hb : op < 256) :
    OpCode.Class op = op % 8 ∧
    (OpCode.Class op = LdClass ∨ OpCode.Class op = LdXClass ∨ OpCode.Class op = StClass ∨
      OpCode.Class op = StXClass ∨ OpCode.Class op = ALUClass ∨ OpCode.Class op = JmpClass ∨
      OpCode.Class op = RetClass ∨ OpCode.Class op = ALU64Class) ∧
    (Class.encoding (OpCode.Class op) = loadOrStore ∨
      Class.encoding (OpCode.Class op) = branchOrALU) ∧
    Class.encoding (OpCode.Class op) ≠ unknownEncoding ∧
    (Class.encoding (OpCode.Class op) = loadOrStore ↔ Class.isLoadStore (OpCode.Class op)) ∧
    (Class.encoding (OpCode.Class op) = branchOrALU ↔
      Class.isArithBranch (OpCode.Class op)) ∧
    (Class.isLoadStore (OpCode.Class op) ↔ ¬ Class.isArithBranch (OpCode.Class op)) := by
  revert op
  decide

/-- Witness for C6 at the byte 0xaf: low bits 7, the ALU64 tag. -/
theorem class_total_witness :
    (0xaf : OpCode) < 256 ∧ OpCode.Class 0xaf = 0xaf % 8 ∧
      Class.encoding (OpCode.Class 0xaf) ≠ unknownEncoding :=
  ⟨by decide, (class_total 0xaf (by decide)).1, (class_total 0xaf (by decide)).2.2.2.1⟩

/-- Claim C7: `a.Ref(s)` has reference `s` and all other fields of `a`; `a.Sym(s)`
has symbol `s` and all other fields of `a`. Both are functions of the value `a`,
which they leave as it is. -/
theorem ref_sym_frame {R : Type} (a : Instruction R) (s : String) :
    ((a.Ref s).Reference = s ∧ (a.Ref s).OpCode = a.OpCode ∧
      (a.Ref s).DstRegister = a.DstRegister ∧ (a.Ref s).SrcRegister = a.SrcRegister ∧
      (a.Ref s).Offset = a.Offset ∧ (a.Ref s).Constant = a.Constant ∧
      (a.Ref s).Symbol = a.Symbol) ∧
    ((a.Sym s).Symbol = s ∧ (a.Sym s).OpCode = a.OpCode ∧
      (a.Sym s).DstRegister = a.DstRegister ∧ (a.Sym s).SrcRegister = a.SrcRegister ∧
      (a.Sym s).Offset = a.Offset ∧ (a.Sym s).Constant = a.Constant ∧
      (a.Sym s).Reference = a.Reference) :=
  ⟨⟨rfl, rfl, rfl, rfl, rfl, rfl, rfl⟩, ⟨rfl, rfl, rfl, rfl, rfl, rfl, rfl⟩⟩

/-- Claim C8: two instructions with the same opcode have the same `EncodedLength()`,
whatever their other fields, and the result is 1 or 2. -/
theorem encodedLength_opcode_only {R : Type} (a b : Instruction R)
    (h : a.OpCode = b.OpCode) :
    a.EncodedLength = b.EncodedLength ∧ (a.EncodedLength = 1 ∨ a.EncodedLength = 2) := by
  refine ⟨by simp only [Instruction.EncodedLength, h], ?_⟩
  unfold Instruction.EncodedLength
  split
  · exact Or.inr rfl
  · exact Or.inl rfl

/-- Witness for C8: two wide loads that differ in every field but the opcode. -/
theorem encodedLength_opcode_only_witness :
    (⟨0x18, 1, 0, 0, 7, "", ""⟩ : Instruction Nat).EncodedLength =
        (⟨0x18, 2, 3, -4, 9, "map", "entry"⟩ : Instruction Nat).EncodedLength ∧
      ((⟨0x18, 1, 0, 0, 7, "", ""⟩ : Instruction Nat).EncodedLength = 1 ∨
        (⟨0x18, 1, 0, 0, 7, "", ""⟩ : Instruction Nat).EncodedLength = 2) :=
  encodedLength_opcode_only ⟨0x18, 1, 0, 0, 7, "", ""⟩ ⟨0x18, 2, 3, -4, 9, "map", "entry"⟩ rfl

/-- Claim C9: for an ALU or ALU64 instruction whose operator is one of the thirteen
non-endian operators, `String()` is the operator label, the width marker (`32` exactly
for `ALUClass`), the source-kind suffix, the destination fragment, and one more
fragment: with `ImmSource` the suffix is `Imm` and the fragment is the immediate;
with `RegSource` the suffix is `Src` and the fragment is the source register. No
offset fragment appears. -/
theorem alu_string {R : Type} [DecidableEq R] (P : Printers R) (ins : Instruction R)
    (hb : ins.OpCode < 256)
    (hcls : OpCode.Class ins.OpCode = ALU64Class ∨ OpCode.Class ins.OpCode = ALUClass)
    (hop : OpCode.ALUOp ins.OpCode ∈ nonEndianOps) :
    (OpCode.Source ins.OpCode = ImmSource ∨ OpCode.Source ins.OpCode = RegSource) ∧
    (widthMarker (OpCode.Class ins.OpCode) = "32" ↔ OpCode.Class ins.OpCode = ALUClass) ∧
    (OpCode.Source ins.OpCode = ImmSource →
      Instruction.String P ins =
        aluOpLabel (OpCode.ALUOp ins.OpCode) ++ widthMarker (OpCode.Class ins.OpCode) ++ "Imm"
          ++ " dst: " ++ P.regString ins.DstRegister
          ++ " imm: " ++ sprintD ins.Constant) ∧
    (OpCode.Source ins.OpCode = RegSource →
      Instruction.String P ins =
        aluOpLabel (OpCode.ALUOp ins.OpCode) ++ widthMarker (OpCode.Class ins.OpCode) ++ "Src"
          ++ " dst: " ++ P.regString ins.DstRegister
          ++ " src: " ++ P.regString ins.SrcRegister) := by
  have hfam : Class.isArithBranch (OpCode.Class ins.OpCode) := by
    rcases hcls with h | h <;> rw [h] <;> decide
  refine ⟨source_imm_or_reg _ hb hfam, ?_, ?_, ?_⟩
  · rcases hcls with h | h <;> rw [h] <;> decide
  · intro hsrc
    simp only [nonEndianOps, List.mem_cons, List.mem_singleton, List.not_mem_nil, or_false] at hop
    rcases hcls with hc | hc <;>
      rcases hop with ho | ho | ho | ho | ho | ho | ho | ho | ho | ho | ho | ho | ho <;>
      simp [Instruction.String, classSwitch, sourceSwitch, aluSwitch, aluOpLabel, widthMarker,
        dstFrag, immFrag, srcFrag, hc, ho, hsrc, String.append_assoc, -String.reduceAppend]
  · intro hsrc
    simp only [nonEndianOps, List.mem_cons, List.mem_singleton, List.not_mem_nil, or_false] at hop
    rcases hcls with hc | hc <;>
      rcases hop with ho | ho | ho | ho | ho | ho | ho | ho | ho | ho | ho | ho | ho <;>
      simp [Instruction.String, classSwitch, sourceSwitch, aluSwitch, aluOpLabel, widthMarker,
        dstFrag, immFrag, srcFrag, hc, ho, hsrc, String.append_assoc, -String.reduceAppend]

/-- Witness for C9: ALU64 add-from-immediate, destination `r0`, constant 5. -/
theorem alu_string_witness :
    Instruction.String natPrinters ⟨0x07, 0, 3, 9, 5, "", ""⟩ = "AddImm dst: r0 imm: 5" :=
  ((alu_string natPrinters ⟨0x07, 0, 3, 9, 5, "", ""⟩ (by decide) (by decide)
    (by decide)).2.2.1 (by decide)).trans (by decide)

/-- Claim C10: for a jump-class instruction whose operator is `CallOp`, `String()` has
no destination, source, offset or immediate fragment: it is `Call ` followed by the
decimal constant when the source register is `R1`, and `Call ` followed by the
helper name of `Func(Constant)` otherwise; so it depends only on the source register
and the constant. -/
theorem call_string {R : Type} [DecidableEq R] (P : Printers R) (ins : Instruction R)
    (hcls : OpCode.Class ins.OpCode = JmpClass)
    (hop : OpCode.BranchOp ins.OpCode = CallOp) :
    (ins.SrcRegister = P.R1 → Instruction.String P ins = "Call " ++ sprintD ins.Constant) ∧
    (ins.SrcRegister ≠ P.R1 →
      Instruction.String P ins = "Call " ++ P.funcString ins.Constant) ∧
    (∀ other : Instruction R, OpCode.Class other.OpCode = JmpClass →
      OpCode.BranchOp other.OpCode = CallOp → other.SrcRegister = ins.SrcRegister →
      other.Constant = ins.Constant → Instruction.String P other = Instruction.String P ins) := by
  have key : ∀ i : Instruction R, OpCode.Class i.OpCode = JmpClass →
      OpCode.BranchOp i.OpCode = CallOp →
      Instruction.String P i =
        if i.SrcRegister = P.R1 then "Call " ++ sprintD i.Constant
        else "Call " ++ P.funcString i.Constant := by
    intro i hc ho
    by_cases hr : i.SrcRegister = P.R1 <;>
      simp [Instruction.String, classSwitch, sourceSwitch, branchSwitch, hc, ho, hr,
        String.append_assoc, call_blank, -String.reduceAppend]
  refine ⟨fun h => by rw [key ins hcls hop, if_pos h],
    fun h => by rw [key ins hcls hop, if_neg h], ?_⟩
  intro other hc ho hs hk
  rw [key other hc ho, key ins hcls hop, hs, hk]

/-- Witness for C10: a call with source register `R1` and constant 7. -/
theorem call_string_witness :
    Instruction.String natPrinters ⟨0x85, 4, 1, 12, 7, "", ""⟩ = "Call 7" :=
  ((call_string natPrinters ⟨0x85, 4, 1, 12, 7, "", ""⟩ (by decide) (by decide)).1
    (by decide)).trans (by decide)

/-! ## Formatter theorems: the load/store rule -/

/-- Claim C11: for a load/store instruction in `AbsMode`, `String()` is the mnemonic
(class label, `Abs`, size label) followed by the immediate fragment only; there is
no destination or offset fragment, so two such instructions with the same opcode and
constant render identically whatever their registers and offset. -/
theorem abs_string {R : Type} [DecidableEq R] (P : Printers R) (ins : Instruction R)
    (hfam : Class.isLoadStore (OpCode.Class ins.OpCode))
    (hm : OpCode.Mode ins.OpCode = AbsMode) :
    Instruction.String P ins =
      classMap (OpCode.Class ins.OpCode) ++ "Abs" ++ sizeLabel (OpCode.Size ins.OpCode)
        ++ " imm: " ++ sprintD ins.Constant ∧
    (∀ other : Instruction R, other.OpCode = ins.OpCode → other.Constant = ins.Constant →
      Instruction.String P other = Instruction.String P ins) := by
  have key : ∀ i : Instruction R, Class.isLoadStore (OpCode.Class i.OpCode) →
      OpCode.Mode i.OpCode = AbsMode →
      Instruction.String P i =
        classMap (OpCode.Class i.OpCode) ++ "Abs" ++ sizeLabel (OpCode.Size i.OpCode)
          ++ " imm: " ++ sprintD i.Constant := by
    intro i hf hmode
    obtain ⟨h1, h2, h3, h4, h5⟩ := classSwitch_loadStore P i (Or.inr hf)
    unfold Instruction.String
    simp only []
    rw [h1, h2, h3, h4, h5]
    simp [loadStoreMnemonic, modeLabel, immFrag, hmode, String.append_assoc,
      -String.reduceAppend]
  refine ⟨key ins hfam hm, ?_⟩
  intro other ho hk
  rw [key ins hfam hm, key other (by rw [ho]; exact hfam) (by rw [ho]; exact hm), ho, hk]

/-- Witness for C11: `LdAbsB` (0x30) with constant 23; the registers and the offset
do not show. -/
theorem abs_string_witness :
    Instruction.String natPrinters ⟨0x30, 10, 1, -4, 23, "", ""⟩ = "LdAbsB imm: 23" :=
  ((abs_string natPrinters ⟨0x30, 10, 1, -4, 23, "", ""⟩ (by decide) (by decide)).1).trans
    (by decide)

/-- Claim C13, the code at a `LenMode` load: `LdClass | LenMode | WSize` (0x80)
renders with a destination fragment after the mnemonic, so the text is not the
mnemonic alone. -/
theorem len_string_has_dst :
    Class.isLoadStore (OpCode.Class 0x80) ∧ OpCode.Mode 0x80 = LenMode ∧
      loadStoreMnemonic 0x80 = "LdLenW" ∧
      Instruction.String natPrinters ⟨0x80, 3, 4, 5, 6, "", ""⟩ = "LdLenW dst: r3" ∧
      Instruction.String natPrinters ⟨0x80, 3, 4, 5, 6, "", ""⟩ ≠ loadStoreMnemonic 0x80 := by
  decide

/-- Claim C13 as amended: for a load/store instruction in `LenMode` or `MshMode`,
`String()` is the mnemonic (class label, `Len` or `Msh`, size label) followed by the
destination fragment only: no source, offset or immediate fragment. -/
theorem len_msh_string {R : Type} [DecidableEq R] (P : Printers R) (ins : Instruction R)
    (hfam : Class.isLoadStore (OpCode.Class ins.OpCode))
    (hm : OpCode.Mode ins.OpCode = LenMode ∨ OpCode.Mode ins.OpCode = MshMode) :
    Instruction.String P ins =
      classMap (OpCode.Class ins.OpCode) ++
        (if OpCode.Mode ins.OpCode = LenMode then "Len" else "Msh") ++
        sizeLabel (OpCode.Size ins.OpCode) ++ " dst: " ++ P.regString ins.DstRegister := by
  obtain ⟨h1, h2, h3, h4, h5⟩ := classSwitch_loadStore P ins (Or.inr hfam)
  unfold Instruction.String
  simp only []
  rw [h1, h2, h3, h4, h5]
  rcases hm with hmode | hmode <;>
    simp [loadStoreMnemonic, modeLabel, dstFrag, hmode, String.append_assoc,
      -String.reduceAppend]

/-- Witness for C13 as amended: `LdXClass | MshMode | BSize` (0xb1). -/
theorem len_msh_string_witness :
    Instruction.String natPrinters ⟨0xb1, 3, 4, 5, 6, "", ""⟩ = "LdXMshB dst: r3" :=
  (len_msh_string natPrinters ⟨0xb1, 3, 4, 5, 6, "", ""⟩ (by decide)
    (Or.inr (by decide))).trans (by decide)

/-- Claim C14, the code at an `IndMode` load: `LdClass | IndMode | WSize` (0x40)
renders a destination fragment before the source fragment. -/
theorem ind_string_has_dst :
    Class.isLoadStore (OpCode.Class 0x40) ∧ OpCode.Mode 0x40 = IndMode ∧
      loadStoreMnemonic 0x40 = "LdIndW" ∧
      Instruction.String natPrinters ⟨0x40, 3, 4, 5, 6, "", ""⟩ =
        "LdIndW dst: r3 src: r4 imm: 6" ∧
      Instruction.String natPrinters ⟨0x40, 3, 4, 5, 6, "", ""⟩ ≠
        loadStoreMnemonic 0x40 ++ " src: " ++ natPrinters.regString 4 ++ " imm: " ++ sprintD 6 := by
  decide

/-- Claim C14 as amended: for a load/store instruction in `IndMode`, `String()` is the
mnemonic (class label, `Ind`, size label), then the destination fragment, then the
source fragment, then the immediate fragment; there is no offset fragment. -/
theorem ind_string {R : Type} [DecidableEq R] (P : Printers R) (ins : Instruction R)
    (hfam : Class.isLoadStore (OpCode.Class ins.OpCode))
    (hm : OpCode.Mode ins.OpCode = IndMode) :
    Instruction.String P ins =
      classMap (OpCode.Class ins.OpCode) ++ "Ind" ++ sizeLabel (OpCode.Size ins.OpCode)
        ++ " dst: " ++ P.regString ins.DstRegister
        ++ " src: " ++ P.regString ins.SrcRegister
        ++ " imm: " ++ sprintD ins.Constant := by
  obtain ⟨h1, h2, h3, h4, h5⟩ := classSwitch_loadStore P ins (Or.inr hfam)
  unfold Instruction.String
  simp only []
  rw [h1, h2, h3, h4, h5]
  simp [loadStoreMnemonic, modeLabel, dstFrag, srcFrag, immFrag, hm, String.append_assoc,
    -String.reduceAppend]

/-- Witness for C14 as amended: `LdClass | IndMode | HSize` (0x48). -/
theorem ind_string_witness :
    Instruction.String natPrinters ⟨0x48, 3, 4, 5, 6, "", ""⟩ =
      "LdIndH dst: r3 src: r4 imm: 6" :=
  (ind_string natPrinters ⟨0x48, 3, 4, 5, 6, "", ""⟩ (by decide) (by decide)).trans
    (by decide)

/-- Claim C15: for a load/store instruction in `MemMode`, `String()` is the mnemonic
(class label and size label; `MemMode` has no mode label) followed in this order by
the destination, source, offset and immediate fragments, each present whatever the
value of its field. -/
theorem mem_string {R : Type} [DecidableEq R] (P : Printers R) (ins : Instruction R)
    (hfam : Class.isLoadStore (OpCode.Class ins.OpCode))
    (hm : OpCode.Mode ins.OpCode = MemMode) :
    Instruction.String P ins =
      loadStoreMnemonic ins.OpCode
        ++ " dst: " ++ P.regString ins.DstRegister
        ++ " src: " ++ P.regString ins.SrcRegister
        ++ " off: " ++ sprintD ins.Offset
        ++ " imm: " ++ sprintD ins.Constant ∧
    loadStoreMnemonic ins.OpCode =
      classMap (OpCode.Class ins.OpCode) ++ sizeLabel (OpCode.Size ins.OpCode) := by
  obtain ⟨h1, h2, h3, h4, h5⟩ := classSwitch_loadStore P ins (Or.inr hfam)
  refine ⟨?_, ?_⟩
  · unfold Instruction.String
    simp only []
    rw [h1, h2, h3, h4, h5]
    simp [dstFrag, srcFrag, offFrag, immFrag, hm, String.append_assoc, -String.reduceAppend]
  · simp [loadStoreMnemonic, modeLabel, hm, -String.reduceAppend]

/-- Witness for C15: `StXClass | MemMode | DWSize` (0x7b) with offset 0 and constant
0, both printed. -/
theorem mem_string_witness :
    Instruction.String natPrinters ⟨0x7b, 10, 1, 0, 0, "", ""⟩ =
      "StXDW dst: r10 src: r1 off: 0 imm: 0" :=
  ((mem_string natPrinters ⟨0x7b, 10, 1, 0, 0, "", ""⟩ (by decide) (by decide)).1).trans
    (by decide)

/-! ## Formatter theorems: the arithmetic/branch rule -/

/-- Claim C12: for a jump-class instruction whose operator is `ExitOp`, `String()` is
exactly `Exit`, whatever the source-kind bit and the stored registers, offset,
constant, reference and symbol. -/
theorem exit_string {R : Type} [DecidableEq R] (P : Printers R) (ins : Instruction R)
    (hcls : OpCode.Class ins.OpCode = JmpClass)
    (hop : OpCode.BranchOp ins.OpCode = ExitOp) :
    Instruction.String P ins = "Exit" := by
  obtain ⟨h1, h2, h3, h4, h5, -⟩ := classSwitch_jmp P ins hcls
  unfold Instruction.String
  simp only []
  rw [h1, h2, h3, h4, h5]
  simp [branchOpLabel, hop, -String.reduceAppend]

/-- Witness for C12: exit with the register-source bit set (0x9d) and every other
field non-zero. -/
theorem exit_string_witness :
    Instruction.String natPrinters ⟨0x9d, 3, 4, 5, 6, "loop", "end"⟩ = "Exit" :=
  exit_string natPrinters ⟨0x9d, 3, 4, 5, 6, "loop", "end"⟩ (by decide) (by decide)

/-- Claim C16: for an ALU or ALU64 instruction whose operator is `EndOp`, `String()`
is the source-kind suffix (`Imm` or `Src`), then the destination fragment, then the
immediate fragment: the operator label is empty, there is no `32` marker even for
`ALUClass`, no source-register fragment, and the immediate shows even with
`RegSource`. -/
theorem end_string {R : Type} [DecidableEq R] (P : Printers R) (ins : Instruction R)
    (hb : ins.OpCode < 256)
    (hcls : OpCode.Class ins.OpCode = ALU64Class ∨ OpCode.Class ins.OpCode = ALUClass)
    (hop : OpCode.ALUOp ins.OpCode = EndOp) :
    (OpCode.Source ins.OpCode = ImmSource ∨ OpCode.Source ins.OpCode = RegSource) ∧
    (classSwitch P ins {}).opPrefix = "" ∧
    (OpCode.Source ins.OpCode = ImmSource →
      Instruction.String P ins =
        "Imm" ++ " dst: " ++ P.regString ins.DstRegister ++ " imm: " ++ sprintD ins.Constant) ∧
    (OpCode.Source ins.OpCode = RegSource →
      Instruction.String P ins =
        "Src" ++ " dst: " ++ P.regString ins.DstRegister ++ " imm: " ++ sprintD ins.Constant) := by
  have hfam : Class.isArithBranch (OpCode.Class ins.OpCode) := by
    rcases hcls with h | h <;> rw [h] <;> decide
  obtain ⟨h1, h2, h3, h4, h5, h6, -⟩ := classSwitch_alu P ins hcls
  refine ⟨source_imm_or_reg _ hb hfam, ?_, ?_, ?_⟩
  · rw [h6]
    simp [aluOpLabel, hop]
  · intro hsrc
    unfold Instruction.String
    simp only []
    rw [h1, h2, h3, h4, h5]
    simp [aluOpLabel, dstFrag, immFrag, hop, hsrc, String.append_assoc, -String.reduceAppend]
  · intro hsrc
    unfold Instruction.String
    simp only []
    rw [h1, h2, h3, h4, h5]
    simp [aluOpLabel, dstFrag, immFrag, hop, hsrc, String.append_assoc, -String.reduceAppend]

/-- Witness for C16: the 32-bit ALU class with `RegSource` and `EndOp` (0xdc). -/
theorem end_string_witness :
    Instruction.String natPrinters ⟨0xdc, 2, 7, 9, 16, "", ""⟩ = "Src dst: r2 imm: 16" :=
  ((end_string natPrinters ⟨0xdc, 2, 7, 9, 16, "", ""⟩ (by decide) (by decide)
    (by decide)).2.2.2 (by decide)).trans (by decide)

/-- Every opcode falls in one of the three cases of the class switch. -/
lemma class_cases (op : OpCode) :
    (OpCode.Class op = RetClass ∨ Class.isLoadStore (OpCode.Class op)) ∨
      (OpCode.Class op = ALU64Class ∨ OpCode.Class op = ALUClass) ∨
      OpCode.Class op = JmpClass := by
  have h : OpCode.Class op ≤ 7 := Nat.and_le_right
  unfold Class.isLoadStore
  generalize OpCode.Class op = c at h
  interval_cases c <;> decide

/-- A fragment is never the empty string. -/
lemma frag_ne_empty (label x : String) (h : label ≠ "") : label ++ x ≠ "" := by
  intro he
  have hl := congrArg String.length he
  rw [String.length_append] at hl
  have h0 : label.length = 0 := by
    have : ("" : String).length = 0 := rfl
    omega
  exact h (String.ext (List.length_eq_zero.mp h0))

/-- With equal opcodes, each fragment variable is empty in both instructions or is the
labelled fragment in both. -/
lemma frags_same_opcode {R : Type} [DecidableEq R] (P : Printers R) (a b : Instruction R)
    (h : a.OpCode = b.OpCode) :
    (((classSwitch P a {}).dst = "" ∧ (classSwitch P b {}).dst = "") ∨
      ((classSwitch P a {}).dst = dstFrag P a ∧ (classSwitch P b {}).dst = dstFrag P b)) ∧
    (((classSwitch P a {}).src = "" ∧ (classSwitch P b {}).src = "") ∨
      ((classSwitch P a {}).src = srcFrag P a ∧ (classSwitch P b {}).src = srcFrag P b)) ∧
    (((classSwitch P a {}).off = "" ∧ (classSwitch P b {}).off = "") ∨
      ((classSwitch P a {}).off = offFrag a ∧ (classSwitch P b {}).off = offFrag b)) ∧
    (((classSwitch P a {}).imm = "" ∧ (classSwitch P b {}).imm = "") ∨
      ((classSwitch P a {}).imm = immFrag a ∧ (classSwitch P b {}).imm = immFrag b)) := by
  rcases class_cases a.OpCode with hc | hc | hc
  · obtain ⟨-, a2, a3, a4, a5⟩ := classSwitch_loadStore P a hc
    obtain ⟨-, b2, b3, b4, b5⟩ := classSwitch_loadStore P b (h ▸ hc)
    rw [a2, a3, a4, a5, b2, b3, b4, b5, ← h]
    refine ⟨?_, ?_, ?_, ?_⟩ <;> (try split_ifs) <;> simp
  · obtain ⟨-, a2, a3, a4, a5, -⟩ := classSwitch_alu P a hc
    obtain ⟨-, b2, b3, b4, b5, -⟩ := classSwitch_alu P b (h ▸ hc)
    rw [a2, a3, a4, a5, b2, b3, b4, b5, ← h]
    refine ⟨?_, ?_, ?_, ?_⟩ <;> (try split_ifs) <;> simp
  · obtain ⟨-, a2, a3, a4, a5, -⟩ := classSwitch_jmp P a hc
    obtain ⟨-, b2, b3, b4, b5, -⟩ := classSwitch_jmp P b (h ▸ hc)
    rw [a2, a3, a4, a5, b2, b3, b4, b5, ← h]
    refine ⟨?_, ?_, ?_, ?_⟩ <;> (try split_ifs) <;> simp

/-- Claim C17: which of the destination, source, offset and immediate fragments
`String()` includes depends on the opcode alone: for two instructions with the same
opcode each fragment is present in one exactly when it is present in the other,
whatever the registers, offset, constant, reference and symbol; a fragment that is
present is the labelled text of its field, and the fragments follow the mnemonic in
the order destination, source, offset, immediate. -/
theorem fragments_by_opcode {R : Type} [DecidableEq R] (P : Printers R) (a b : Instruction R)
    (h : a.OpCode = b.OpCode) :
    (((classSwitch P a {}).dst ≠ "" ↔ (classSwitch P b {}).dst ≠ "") ∧
      ((classSwitch P a {}).src ≠ "" ↔ (classSwitch P b {}).src ≠ "") ∧
      ((classSwitch P a {}).off ≠ "" ↔ (classSwitch P b {}).off ≠ "") ∧
      ((classSwitch P a {}).imm ≠ "" ↔ (classSwitch P b {}).imm ≠ "")) ∧
    (((classSwitch P a {}).dst = "" ∨
        (classSwitch P a {}).dst = " dst: " ++ P.regString a.DstRegister) ∧
      ((classSwitch P a {}).src = "" ∨
        (classSwitch P a {}).src = " src: " ++ P.regString a.SrcRegister) ∧
      ((classSwitch P a {}).off = "" ∨
        (classSwitch P a {}).off = " off: " ++ sprintD a.Offset) ∧
      ((classSwitch P a {}).imm = "" ∨
        (classSwitch P a {}).imm = " imm: " ++ sprintD a.Constant)) ∧
    Instruction.String P a =
      (classSwitch P a {}).opStr ++ (classSwitch P a {}).dst ++ (classSwitch P a {}).src ++
        (classSwitch P a {}).off ++ (classSwitch P a {}).imm := by
  have hne : ∀ label x : String, label ≠ "" → label ++ x ≠ "" := frag_ne_empty
  obtain ⟨hd, hs, ho, hi⟩ := frags_same_opcode P a b h
  refine ⟨⟨?_, ?_, ?_, ?_⟩, ⟨?_, ?_, ?_, ?_⟩, rfl⟩
  · rcases hd with ⟨x, y⟩ | ⟨x, y⟩
    · rw [x, y]
    · rw [x, y]
      exact ⟨fun _ => hne _ _ (by decide), fun _ => hne _ _ (by decide)⟩
  · rcases hs with ⟨x, y⟩ | ⟨x, y⟩
    · rw [x, y]
    · rw [x, y]
      exact ⟨fun _ => hne _ _ (by decide), fun _ => hne _ _ (by decide)⟩
  · rcases ho with ⟨x, y⟩ | ⟨x, y⟩
    · rw [x, y]
    · rw [x, y]
      exact ⟨fun _ => hne _ _ (by decide), fun _ => hne _ _ (by decide)⟩
  · rcases hi with ⟨x, y⟩ | ⟨x, y⟩
    · rw [x, y]
    · rw [x, y]
      exact ⟨fun _ => hne _ _ (by decide), fun _ => hne _ _ (by decide)⟩
  · rcases hd with ⟨x, -⟩ | ⟨x, -⟩
    · exact Or.inl x
    · exact Or.inr x
  · rcases hs with ⟨x, -⟩ | ⟨x, -⟩
    · exact Or.inl x
    · exact Or.inr x
  · rcases ho with ⟨x, -⟩ | ⟨x, -⟩
    · exact Or.inl x
    · exact Or.inr x
  · rcases hi with ⟨x, -⟩ | ⟨x, -⟩
    · exact Or.inl x
    · exact Or.inr x

/-- Witness for C17: two memory-mode stores (0x7b) that differ in every field but the
opcode; both show a destination fragment, and an immediate of 0 is still shown. -/
theorem fragments_by_opcode_witness :
    ((classSwitch natPrinters ⟨0x7b, 10, 1, -8, 0, "", ""⟩ {}).dst ≠ "" ↔
      (classSwitch natPrinters ⟨0x7b, 2, 3, 4, 5, "x", "y"⟩ {}).dst ≠ "") ∧
    ((classSwitch natPrinters ⟨0x7b, 10, 1, -8, 0, "", ""⟩ {}).imm ≠ "" ↔
      (classSwitch natPrinters ⟨0x7b, 2, 3, 4, 5, "x", "y"⟩ {}).imm ≠ "") :=
  ⟨(fragments_by_opcode natPrinters ⟨0x7b, 10, 1, -8, 0, "", ""⟩ ⟨0x7b, 2, 3, 4, 5, "x", "y"⟩
      rfl).1.1,
    (fragments_by_opcode natPrinters ⟨0x7b, 10, 1, -8, 0, "", ""⟩ ⟨0x7b, 2, 3, 4, 5, "x", "y"⟩
      rfl).1.2.2.2⟩

/-- Claim C18, the code at a return-class opcode: the byte 0x06 (`RetClass`, in the
arithmetic/branch family of the codec) is formatted by the first case of the class
switch, with the load and store classes: the mnemonic is the class label `Rt`, built
as class label, mode label, size label, and it carries no `Imm` or `Src` suffix. -/
theorem ret_string_loadStore_rule :
    Class.isArithBranch (OpCode.Class 0x06) ∧
      Class.encoding (OpCode.Class 0x06) = branchOrALU ∧
      Instruction.String natPrinters ⟨0x06, 10, 1, 0, 0, "", ""⟩ = "Rt dst: r10" ∧
      (classSwitch natPrinters ⟨0x06, 10, 1, 0, 0, "", ""⟩ {}).opStr = loadStoreMnemonic 0x06 ∧
      (classSwitch natPrinters ⟨0x06, 10, 1, 0, 0, "", ""⟩ {}).opStr = "Rt" ∧
      ¬ (∃ label : String,
        (classSwitch natPrinters ⟨0x06, 10, 1, 0, 0, "", ""⟩ {}).opStr = label ++ "Imm" ∨
        (classSwitch natPrinters ⟨0x06, 10, 1, 0, 0, "", ""⟩ {}).opStr = label ++ "Src") := by
  have hop : (classSwitch natPrinters ⟨0x06, 10, 1, 0, 0, "", ""⟩ {}).opStr = "Rt" := by decide
  refine ⟨by decide, by decide, by decide, by decide, hop, ?_⟩
  rintro ⟨label, hl | hl⟩ <;>
    · rw [hop] at hl
      have hlen := congrArg String.length hl
      rw [String.length_append] at hlen
      have h2 : ("Rt" : String).length = 2 := rfl
      have h3 : ("Imm" : String).length = 3 := rfl
      have h4 : ("Src" : String).length = 3 := rfl
      omega

/-- Claim C18 as amended: an instruction of class ALU, ALU64 or Jmp is formatted by
the arithmetic/branch rule and never by the load/store rule (the class, mode and size
labels stay empty): the mnemonic is the operator label, the `32` marker for the
32-bit ALU class (none for `EndOp`), and the suffix `Imm` or `Src`, with the call and
exit special cases. An instruction of class Ret is formatted by the first case of
the class switch: the class label `Rt` followed by the destination fragment only. -/
theorem dispatch_by_class {R : Type} [DecidableEq R] (P : Printers R) (ins : Instruction R) :
    (OpCode.Class ins.OpCode = ALU64Class ∨ OpCode.Class ins.OpCode = ALUClass →
      (classSwitch P ins {}).opStr =
        aluOpLabel (OpCode.ALUOp ins.OpCode) ++
          (if OpCode.ALUOp ins.OpCode = EndOp then ""
            else if OpCode.Class ins.OpCode = ALUClass then "32" else "") ++
          (if OpCode.Source ins.OpCode = ImmSource then "Imm" else "Src") ∧
      (classSwitch P ins {}).class_ = "" ∧ (classSwitch P ins {}).mode = "" ∧
      (classSwitch P ins {}).size = "") ∧
    (OpCode.Class ins.OpCode = JmpClass →
      (classSwitch P ins {}).opStr =
        branchOpLabel (OpCode.BranchOp ins.OpCode) ++
          (if OpCode.BranchOp ins.OpCode = CallOp then
            (if ins.SrcRegister = P.R1 then " " ++ sprintD ins.Constant
              else " " ++ P.funcString ins.Constant)
            else if OpCode.BranchOp ins.OpCode = ExitOp then ""
            else if OpCode.Source ins.OpCode = ImmSource then "Imm" else "Src") ∧
      (classSwitch P ins {}).class_ = "" ∧ (classSwitch P ins {}).mode = "" ∧
      (classSwitch P ins {}).size = "") ∧
    (OpCode.Class ins.OpCode = RetClass →
      (classSwitch P ins {}).opStr = "Rt" ∧
      Instruction.String P ins = "Rt" ++ " dst: " ++ P.regString ins.DstRegister) := by
  refine ⟨?_, ?_, ?_⟩
  · intro hc
    obtain ⟨h1, -, -, -, -, -, -, h8, h9, h10⟩ := classSwitch_alu P ins hc
    exact ⟨h1, h8, h9, h10⟩
  · intro hc
    obtain ⟨h1, -, -, -, -, -, -, h8, h9, h10⟩ := classSwitch_jmp P ins hc
    exact ⟨h1, h8, h9, h10⟩
  · intro hc
    obtain ⟨h1, h2, h3, h4, h5⟩ := classSwitch_loadStore P ins (Or.inl hc)
    have hmode : OpCode.Mode ins.OpCode = InvalidMode := by
      simp [OpCode.Mode, Class.encoding, hc]
    have hsize : OpCode.Size ins.OpCode = InvalidSize := by
      simp [OpCode.Size, Class.encoding, hc]
    have hmn : loadStoreMnemonic ins.OpCode = "Rt" := by
      simp [loadStoreMnemonic, classMap, modeLabel, sizeLabel, hc, hmode, hsize]
    refine ⟨by rw [h1, hmn], ?_⟩
    unfold Instruction.String
    simp only []
    rw [h1, h2, h3, h4, h5, hmn]
    simp [dstFrag, hmode, String.append_assoc, -String.reduceAppend]

/-- Witness for C18 as amended: a 64-bit move from a register (0xbf) has mnemonic
`MovSrc`, and a return-class opcode (0x06) renders as `Rt` and its destination. -/
theorem dispatch_by_class_witness :
    (classSwitch natPrinters ⟨0xbf, 6, 1, 0, 0, "", ""⟩ {}).opStr = "MovSrc" ∧
      Instruction.String natPrinters ⟨0x06, 10, 1, 0, 0, "", ""⟩ = "Rt dst: r10" :=
  ⟨((dispatch_by_class natPrinters ⟨0xbf, 6, 1, 0, 0, "", ""⟩).1 (Or.inl (by decide))).1.trans
      (by decide),
    ((dispatch_by_class natPrinters ⟨0x06, 10, 1, 0, 0, "", ""⟩).2.2 (by decide)).2.trans
      (by decide)⟩

set_option maxRecDepth 100000 in
/-- In the load/store family the size bits always select one of the four sizes. -/
lemma size_named (op : OpCode) (hb : op < 256) (hc : Class.isLoadStore (OpCode.Class op)) :
    OpCode.Size op = BSize ∨ OpCode.Size op = HSize ∨ OpCode.Size op = WSize ∨
      OpCode.Size op = DWSize := by
  revert hc
  revert op
  decide

/-- Claim C19, the code at the wide immediate load: `LdClass | ImmMode | DWSize`
(0x18) has mnemonic `LdImmDW`; the size label is not omitted in immediate mode. -/
theorem imm_mnemonic_keeps_size :
    Class.isLoadStore (OpCode.Class 0x18) ∧ OpCode.Mode 0x18 = ImmMode ∧
      (classSwitch natPrinters ⟨0x18, 1, 0, 0, 7, "", ""⟩ {}).opStr = "LdImmDW" ∧
      (classSwitch natPrinters ⟨0x18, 1, 0, 0, 7, "", ""⟩ {}).opStr ≠
        classMap (OpCode.Class 0x18) ++ "Imm" ∧
      Instruction.String natPrinters ⟨0x18, 1, 0, 0, 7, "", ""⟩ = "LdImmDW dst: r1 imm: 7" := by
  decide

/-- Claim C19 as amended: for a load/store instruction the mnemonic of `String()` is the
class label, then the addressing-mode label, then the size label; the size label is
one of `B`, `H`, `W`, `DW` and is present in every addressing mode, while the mode
label is empty in `MemMode`; in `ImmMode` the mnemonic is the class label, `Imm`, and
the size label. -/
theorem loadStore_mnemonic {R : Type} [DecidableEq R] (P : Printers R) (ins : Instruction R)
    (hb : ins.OpCode < 256) (hfam : Class.isLoadStore (OpCode.Class ins.OpCode)) :
    (classSwitch P ins {}).opStr =
      classMap (OpCode.Class ins.OpCode) ++ modeLabel (OpCode.Mode ins.OpCode) ++
        sizeLabel (OpCode.Size ins.OpCode) ∧
    (sizeLabel (OpCode.Size ins.OpCode) = "B" ∨ sizeLabel (OpCode.Size ins.OpCode) = "H" ∨
      sizeLabel (OpCode.Size ins.OpCode) = "W" ∨ sizeLabel (OpCode.Size ins.OpCode) = "DW") ∧
    (OpCode.Mode ins.OpCode = MemMode → modeLabel (OpCode.Mode ins.OpCode) = "") ∧
    (OpCode.Mode ins.OpCode = ImmMode →
      (classSwitch P ins {}).opStr =
        classMap (OpCode.Class ins.OpCode) ++ "Imm" ++ sizeLabel (OpCode.Size ins.OpCode)) := by
  obtain ⟨h1, -⟩ := classSwitch_loadStore P ins (Or.inr hfam)
  refine ⟨h1, ?_, ?_, ?_⟩
  · rcases size_named ins.OpCode hb hfam with h | h | h | h <;> rw [h] <;> decide
  · intro hm
    rw [hm]
    decide
  · intro hm
    rw [h1, loadStoreMnemonic, hm]
    rfl

/-- Witness for C19 as amended: the wide immediate load (0x18) has mnemonic
`LdImmDW`. -/
theorem loadStore_mnemonic_witness :
    (classSwitch natPrinters ⟨0x18, 1, 0, 0, 7, "", ""⟩ {}).opStr = "LdImmDW" :=
  ((loadStore_mnemonic natPrinters ⟨0x18, 1, 0, 0, 7, "", ""⟩ (by decide) (by decide)).2.2.2
    (by decide)).trans (by decide)

/-- Claim C20: for a load/store instruction in `XAddMode`, `String()` is the class
label, `XAdd`, the size label, the destination fragment and the source fragment, with
no offset or immediate fragment; the mode-before-class string assigned in the `xAdd`
branch is overwritten and is not the mnemonic. -/
theorem xadd_string {R : Type} [DecidableEq R] (P : Printers R) (ins : Instruction R)
    (hb : ins.OpCode < 256) (hfam : Class.isLoadStore (OpCode.Class ins.OpCode))
    (hm : OpCode.Mode ins.OpCode = XAddMode) :
    Instruction.String P ins =
      classMap (OpCode.Class ins.OpCode) ++ "XAdd" ++ sizeLabel (OpCode.Size ins.OpCode)
        ++ " dst: " ++ P.regString ins.DstRegister
        ++ " src: " ++ P.regString ins.SrcRegister ∧
    (classSwitch P ins {}).opStr =
      classMap (OpCode.Class ins.OpCode) ++ "XAdd" ++ sizeLabel (OpCode.Size ins.OpCode) ∧
    (classSwitch P ins {}).opStr ≠ "XAdd" ++ classMap (OpCode.Class ins.OpCode) := by
  obtain ⟨h1, h2, h3, h4, h5⟩ := classSwitch_loadStore P ins (Or.inr hfam)
  have hmn : loadStoreMnemonic ins.OpCode =
      classMap (OpCode.Class ins.OpCode) ++ "XAdd" ++ sizeLabel (OpCode.Size ins.OpCode) := by
    rw [loadStoreMnemonic, hm]
    rfl
  refine ⟨?_, by rw [h1, hmn], ?_⟩
  · unfold Instruction.String
    simp only []
    rw [h1, h2, h3, h4, h5, hmn]
    simp [dstFrag, srcFrag, hm, String.append_assoc, -String.reduceAppend]
  · rw [h1, hmn]
    have hfam2 := hfam
    unfold Class.isLoadStore at hfam2
    rcases hfam2 with hc | hc | hc | hc <;>
      rcases size_named ins.OpCode hb hfam with hs | hs | hs | hs <;>
      rw [hc, hs] <;> decide

/-- Witness for C20: `StXClass | XAddMode | WSize` (0xc3), destination `r0`, source
`r1`. -/
theorem xadd_string_witness :
    Instruction.String natPrinters ⟨0xc3, 0, 1, 0, 0, "", ""⟩ = "StXXAddW dst: r0 src: r1" :=
  ((xadd_string natPrinters ⟨0xc3, 0, 1, 0, 0, "", ""⟩ (by decide) (by decide)
    (by decide)).1).trans (by decide)

end Asm
